import Mathlib

/-!
Verification development for the next/dynamic import collection pass
(packages/next-swc/crates/next-api/src/dynamic_imports.rs).

The pass walks the syntax tree of each module reachable from an entry
module, collects raw specifier strings that appear inside calls to the
module's local binding of the deferred-load wrapper (the default export
of "next/dynamic"), resolves each specifier to a target module, and
aggregates the results into an ordered mapping from origin module to
its list of (specifier, resolved module) pairs.

Modules are identified by natural numbers.  The external collaborators
(referenced-modules listing, parser, resolver) are parameters, mirroring
the interfaces the Rust code consumes.
-/

namespace NextDynamic

/-- Literal syntax-tree nodes. The Rust code only inspects `Lit::Str`;
every other literal kind is collapsed into `otherLit`. -/
inductive Lit where
  | str (value : String)
  | otherLit
deriving DecidableEq, Repr

mutual
/-- Expression nodes of the embedded syntax tree: identifiers, literals,
call expressions (callee plus argument list, each argument standing for
the `expr` field of swc's `ExprOrSpread`), a generic composite node
`arr` standing for any non-call expression with sub-expressions (the
default visitor recurses through those), and an opaque leaf `otherE`. -/
inductive Expr where
  | ident (sym : String)
  | litE (l : Lit)
  | call (callee : Callee) (args : ExprList)
  | arr (elems : ExprList)
  | otherE

/-- Callee of a call expression, mirroring swc's `Callee`:
`Super`, `Import`, or a general expression. -/
inductive Callee where
  | superC
  | importC
  | exprC (e : Expr)

/-- Argument / element lists, as a dedicated inductive so that the
mutual visitor recursions are structural. -/
inductive ExprList where
  | nil
  | cons (head : Expr) (tail : ExprList)
end

/-- Import specifiers, mirroring swc's `ImportSpecifier`: a default
specifier (`s.as_default()` succeeds exactly here), a named specifier
with its optional imported name (so `\x7b default as d \x7d` is
`named "d" (some "default")`), or a namespace specifier. -/
inductive ImportSpecifier where
  | defaultSpec (localName : String)
  | named (localName : String) (importedName : Option String)
  | namespaceSpec (localName : String)
deriving DecidableEq, Repr

/-- Top-level `ImportDecl`: source string and specifier list. -/
structure ImportDecl where
  src : String
  specifiers : List ImportSpecifier
deriving DecidableEq, Repr

/-- A module item is either a top-level import declaration or a
statement containing an expression (the visitor only ever looks at
the import declarations and call expressions, so this is the whole
surface it distinguishes). -/
inductive ModuleItem where
  | importItem (d : ImportDecl)
  | stmt (e : Expr)

/-! ### CollectImportSourceVisitor

State is the single `import_source : Option<String>` slot.  The visitor
overrides `visit_call_expr`: when the callee is `Callee::Import` and the
FIRST argument is a string literal it stores that literal (an
unconditional overwrite), and it never recurses into the children of
any call expression.  All other nodes use the default visit, which
recurses into children. -/

mutual
/-- One step of `CollectImportSourceVisitor` on an expression. -/
def collectExpr (st : Option String) : Expr → Option String
  | .ident _ => st
  | .litE _ => st
  | .otherE => st
  | .arr elems => collectList st elems
  | .call c args =>
    match c with
    | .importC =>
      match args with
      | .cons (.litE (.str s)) _ => some s
      | _ => st
    | _ => st

/-- `CollectImportSourceVisitor` over an expression list, left to right. -/
def collectList (st : Option String) : ExprList → Option String
  | .nil => st
  | .cons e rest => collectList (collectExpr st e) rest
end

/-- Running a fresh `CollectImportSourceVisitor` over the children of a
call expression (`call_expr.visit_children_with(&mut v)`): the callee's
expression first, then the arguments in order. -/
def collectCallChildren (c : Callee) (args : ExprList) : Option String :=
  collectList
    (match c with
     | .exprC e => collectExpr none e
     | _ => none)
    args

/-! ### LodableImportVisitor -/

/-- Mutable state of `LodableImportVisitor`: the tracked local binding
of the wrapper (`dynamic_ident`, only the symbol name matters for the
comparison `ident.sym == *dynamic_ident.sym`) and the accumulated
raw import sources. -/
structure LState where
  dynamicIdent : Option String
  importSources : List String
deriving DecidableEq, Repr

/-- `ImportSpecifier::as_default` — succeeds only on the default
specifier variant, yielding its local binding name. -/
def asDefault : ImportSpecifier → Option String
  | .defaultSpec localName => some localName
  | _ => none

/-- `LodableImportVisitor::visit_import_decl`: when the declaration's
source is "next/dynamic" and its first specifier is a default
specifier, record (overwrite) the local binding name. -/
def visitImportDecl (st : LState) (d : ImportDecl) : LState :=
  if d.src = "next/dynamic" then
    match d.specifiers.head?.bind asDefault with
    | some localName => { st with dynamicIdent := some localName }
    | none => st
  else st

/-- The matching step at the start of
`LodableImportVisitor::visit_call_expr`: when the callee is a plain
identifier equal to the tracked binding, run a fresh nested collector
over the call's children and push its result (if any) onto the list. -/
def wrapperMatchStep (st : LState) (c : Callee) (args : ExprList) : LState :=
  match c, st.dynamicIdent with
  | .exprC (.ident sym), some d =>
    if sym = d then
      match collectCallChildren (.exprC (.ident sym)) args with
      | some s => { st with importSources := st.importSources ++ [s] }
      | none => st
    else st
  | _, _ => st

mutual
/-- `LodableImportVisitor` on an expression.  Call expressions first run
the matching step and then unconditionally visit their children
(callee, then arguments); other composite nodes recurse by default. -/
def lodableExpr (st : LState) : Expr → LState
  | .ident _ => st
  | .litE _ => st
  | .otherE => st
  | .arr elems => lodableList st elems
  | .call c args => lodableList (lodableCallee (wrapperMatchStep st c args) c) args

/-- `LodableImportVisitor` on a callee (child traversal of a call). -/
def lodableCallee (st : LState) : Callee → LState
  | .exprC e => lodableExpr st e
  | _ => st

/-- `LodableImportVisitor` over an expression list, left to right. -/
def lodableList (st : LState) : ExprList → LState
  | .nil => st
  | .cons e rest => lodableList (lodableExpr st e) rest
end

/-- `LodableImportVisitor` on a module item. -/
def lodableModuleItem (st : LState) : ModuleItem → LState
  | .importItem d => visitImportDecl st d
  | .stmt e => lodableExpr st e

/-- Running `LodableImportVisitor::new()` over a whole program
(`program.visit_with(&mut visitor)`), items in source order. -/
def lodableProgram (items : List ModuleItem) : LState :=
  items.foldl lodableModuleItem { dynamicIdent := none, importSources := [] }

/-! ### Per-module extractor (`build_dynamic_imports_map_for_module`) -/

/-- Result of the external parser for a module: a program or a failure
marker (any non-`Ok` `ParseResult` takes the failure branch). -/
inductive ParseResult where
  | ok (program : List ModuleItem)
  | failed

/-- What the extractor observes about one module: its identity path
(`module.ident().path()`), whether the downcast to
`EcmascriptModuleAsset` succeeds, and its parse result. -/
structure ModuleInfo where
  path : String
  isEcmascript : Bool
  parse : ParseResult

/-- Issue severities used by this pass. -/
inductive IssueSeverity where
  | error
  | warning
deriving DecidableEq, Repr

/-- One emitted diagnostic record, with the fields the `Issue`
implementation of `NextDynamicParsingIssue` provides. -/
structure IssueRecord where
  severity : IssueSeverity
  category : String
  filePath : String
  title : String
  description : String
  detail : String
deriving DecidableEq, Repr

/-- The diagnostic emitted by `NextDynamicParsingIssue` for a module at
path `p`: warning severity, "parsing" category, fixed title and text. -/
def nextDynamicParsingIssue (p : String) : IssueRecord :=
  { severity := .warning
    category := "parsing"
    filePath := p
    title := "Unable to parse source file"
    description :=
      "Failed to parse source file. This is likely due to a syntax error in the source file."
    detail :=
      "Failed to parse source file. This is likely due to a syntax error in the source file." }

/-- The resolution loop of `build_dynamic_imports_map_for_module`: for
each raw source in order, ask the resolver (`esm_resolve` +
`first_module`, with the origin module's context); keep `(source,
module)` when it yields a module, silently drop the source otherwise. -/
def resolveAll (resolve : Nat → String → Option Nat) (m : Nat) :
    List String → List (String × Nat)
  | [] => []
  | s :: rest =>
    match resolve m s with
    | some target => (s, target) :: resolveAll resolve m rest
    | none => resolveAll resolve m rest

/-- `build_dynamic_imports_map_for_module`: returns the optional
`(origin module, resolved pairs)` cell together with the diagnostics it
emits.  Non-ecmascript modules yield nothing; parse failures emit one
parsing issue and yield nothing; an empty raw-source list yields
nothing; otherwise the resolved pairs are returned — note the
emptiness test happens on the RAW source list, before resolution. -/
def build_dynamic_imports_map_for_module (env : Nat → ModuleInfo)
    (resolve : Nat → String → Option Nat) (m : Nat) :
    Option (Nat × List (String × Nat)) × List IssueRecord :=
  let info := env m
  if info.isEcmascript = false then (none, [])
  else
    match info.parse with
    | .failed => (none, [nextDynamicParsingIssue info.path])
    | .ok program =>
      let sources := (lodableProgram program).importSources
      if sources.isEmpty then (none, [])
      else (some (m, resolveAll resolve m sources), [])

/-! ### Graph collector and aggregator (`collect_next_dynamic_imports`) -/

/-- Worklist traversal with a visited list, modelling the
`NonDeterministic::new().skip_duplicates().visit(...)` graph traversal:
each module is visited at most once; `visited` records discovery order.
`fuel` bounds the number of steps (the host guarantees the real graph
is finite). -/
def visitStep (refs : Nat → List Nat) : Nat → List Nat → List Nat → List Nat
  | 0, _, visited => visited
  | _ + 1, [], visited => visited
  | fuel + 1, m :: queue, visited =>
    if m ∈ visited then visitStep refs fuel queue visited
    else visitStep refs fuel (queue ++ refs m) (visited ++ [m])

/-- All modules the traversal reaches from `entry`, each once, in
discovery order. -/
def traverseModules (refs : Nat → List Nat) (fuel : Nat) (entry : Nat) :
    List Nat :=
  visitStep refs fuel [entry] []

/-- `import_mappings.entry(origin).or_insert_with(Vec::new).append(..)`
on an insertion-ordered association list: append to an existing key's
list, otherwise insert the new key at the end. -/
def insertAppend (acc : List (Nat × List (String × Nat))) (key : Nat)
    (vals : List (String × Nat)) : List (Nat × List (String × Nat)) :=
  match acc with
  | [] => [(key, vals)]
  | (k, v) :: rest =>
    if k = key then (k, v ++ vals) :: rest
    else (k, v) :: insertAppend rest key vals

/-- One consolidation step of `collect_next_dynamic_imports`: a
`Some` extraction result is merged into the mapping with
`insertAppend`, a `None` result contributes nothing. -/
def mappingStep (acc : List (Nat × List (String × Nat)))
    (r : Option (Nat × List (String × Nat)) × List IssueRecord) :
    List (Nat × List (String × Nat)) :=
  match r.1 with
  | some (origin, dynImports) => insertAppend acc origin dynImports
  | none => acc

/-- Accumulation of the diagnostics emitted by the per-module runs. -/
def issueStep (acc : List IssueRecord)
    (r : Option (Nat × List (String × Nat)) × List IssueRecord) :
    List IssueRecord :=
  acc ++ r.2

/-- `collect_next_dynamic_imports`: traverse the reference graph from
`entry`, run the per-module extractor on every module reached, and fold
the non-empty results into a single insertion-ordered mapping (second
component: all diagnostics emitted along the way). -/
def collect_next_dynamic_imports (env : Nat → ModuleInfo)
    (refs : Nat → List Nat) (resolve : Nat → String → Option Nat)
    (fuel : Nat) (entry : Nat) :
    List (Nat × List (String × Nat)) × List IssueRecord :=
  let modules := traverseModules refs fuel entry
  let results := modules.map (build_dynamic_imports_map_for_module env resolve)
  (results.foldl mappingStep [], results.foldl issueStep [])

/-! ### Syntactic occurrence predicate

Used to state that the pattern matcher only ever reports strings that
occur as the string-literal first argument of some dynamic-load call in
the tree. -/

mutual
/-- `s` occurs in `e` as the string-literal first argument of an
`import(...)` call. -/
def hasImportLitE (s : String) : Expr → Bool
  | .ident _ => false
  | .litE _ => false
  | .otherE => false
  | .arr elems => hasImportLitL s elems
  | .call c args =>
    (match c, args with
     | .importC, .cons (.litE (.str v)) _ => v == s
     | _, _ => false)
    || hasImportLitC s c || hasImportLitL s args

/-- Occurrence inside a callee. -/
def hasImportLitC (s : String) : Callee → Bool
  | .exprC e => hasImportLitE s e
  | _ => false

/-- Occurrence inside an expression list. -/
def hasImportLitL (s : String) : ExprList → Bool
  | .nil => false
  | .cons e rest => hasImportLitE s e || hasImportLitL s rest
end

/-- Occurrence inside a module item. -/
def hasImportLitItem (s : String) : ModuleItem → Bool
  | .importItem _ => false
  | .stmt e => hasImportLitE s e

/-- Occurrence anywhere in a program. -/
def hasImportLitProgram (s : String) (items : List ModuleItem) : Bool :=
  items.any (hasImportLitItem s)

/-! ### Concrete programs and environments used in scenarios -/

/-- The dynamic-load expression `import(s)` with a string-literal
argument. -/
def impCall (s : String) : Expr := .call .importC (.cons (.litE (.str s)) .nil)

/-- A module importing the wrapper under local name `x` and containing
one wrapper call `x(import(s))`. -/
def aliasProg (x s : String) : List ModuleItem :=
  [ .importItem ⟨"next/dynamic", [.defaultSpec x]⟩,
    .stmt (.call (.exprC (.ident x)) (.cons (impCall s) .nil)) ]

/-- A module with a single wrapper call holding TWO sibling
dynamic-load calls: `x(import(a), import(b))`. -/
def twoSiblingProg (x a b : String) : List ModuleItem :=
  [ .importItem ⟨"next/dynamic", [.defaultSpec x]⟩,
    .stmt (.call (.exprC (.ident x))
      (.cons (impCall a) (.cons (impCall b) .nil))) ]

/-- A module with a wrapper call whose dynamic-load argument is a
non-literal expression (`x(g())`) followed by a sibling wrapper call
with a literal argument (`x(import(b))`). -/
def mixedProg (x g b : String) : List ModuleItem :=
  [ .importItem ⟨"next/dynamic", [.defaultSpec x]⟩,
    .stmt (.call (.exprC (.ident x))
      (.cons (.call (.exprC (.ident g)) .nil) .nil)),
    .stmt (.call (.exprC (.ident x)) (.cons (impCall b) .nil)) ]

/-- A module with two wrapper calls `x(import(w))` and `x(import(c))`
(the app.js scenario of the spec). -/
def appProg (x w c : String) : List ModuleItem :=
  [ .importItem ⟨"next/dynamic", [.defaultSpec x]⟩,
    .stmt (.call (.exprC (.ident x)) (.cons (impCall w) .nil)),
    .stmt (.call (.exprC (.ident x)) (.cons (impCall c) .nil)) ]

/-- A module with two wrapper-import declarations in sequence, the
second binding `y`. -/
def twoDeclProg (x y : String) : List ModuleItem :=
  [ .importItem ⟨"next/dynamic", [.defaultSpec x]⟩,
    .importItem ⟨"next/dynamic", [.defaultSpec y]⟩ ]

/-- Environment for the all-unresolvable scenario: every module is the
parsed `aliasProg "dynamic" "./a"` module. -/
def envUnresolved : Nat → ModuleInfo :=
  fun _ => ⟨"app.js", true, .ok (aliasProg "dynamic" "./a")⟩

/-- Resolver that fails on every specifier. -/
def resolveNone : Nat → String → Option Nat := fun _ _ => none

/-- Reference graph with no edges. -/
def refsEmpty : Nat → List Nat := fun _ => []

/-- Environment for the parse-failure scenario: module 0 fails to
parse, every other module is a parsed `aliasProg "dynamic" "./w"`. -/
def envParseFail : Nat → ModuleInfo := fun m =>
  if m = 0 then ⟨"app.js", true, .failed⟩
  else ⟨"widget.js", true, .ok (aliasProg "dynamic" "./w")⟩

/-- Reference graph for the parse-failure scenario: module 0 references
module 1. -/
def refsParseFail : Nat → List Nat := fun m => if m = 0 then [1] else []

/-- Resolver for the parse-failure scenario: "./w" resolves to module
7, everything else fails. -/
def resolveParseFail : Nat → String → Option Nat :=
  fun _ s => if s = "./w" then some 7 else none

/-- Diamond reference graph: 0 → 1, 0 → 2, 1 → 3, 2 → 3. -/
def refsDiamond : Nat → List Nat := fun m =>
  if m = 0 then [1, 2] else if m = 1 then [3] else if m = 2 then [3] else []

/-- Environment for the app.js resolution scenario: module 0 is the
parsed `appProg "dynamic" "./widget" "./chart"`. -/
def envApp : Nat → ModuleInfo :=
  fun _ => ⟨"app.js", true, .ok (appProg "dynamic" "./widget" "./chart")⟩

/-- Resolver for the app.js scenario: "./widget" resolves to module 5,
"./chart" (and everything else) fails. -/
def resolveApp : Nat → String → Option Nat :=
  fun _ s => if s = "./widget" then some 5 else none

/-- A module that calls `dynamic(import("./a"))` but never imports the
wrapper. -/
def noImportProg : List ModuleItem :=
  [ .stmt (.call (.exprC (.ident "dynamic")) (.cons (impCall "./a") .nil)) ]

/-- Environment whose modules all hold `noImportProg`. -/
def envNoImport : Nat → ModuleInfo :=
  fun _ => ⟨"plain.js", true, .ok noImportProg⟩

/-- Environment for the aliasing scenario: every module is the parsed
`aliasProg "lazy" "./b"` module. -/
def envAlias : Nat → ModuleInfo :=
  fun _ => ⟨"a.js", true, .ok (aliasProg "lazy" "./b")⟩

/-- Resolver for the aliasing scenario: "./b" resolves to module 3. -/
def resolveAlias : Nat → String → Option Nat :=
  fun _ s => if s = "./b" then some 3 else none

/-! ### Helper lemmas: the import-declaration visitor -/

theorem visitImportDecl_ne (st : LState) (d : ImportDecl)
    (h : d.src ≠ "next/dynamic") : visitImportDecl st d = st := by
  simp [visitImportDecl, h]

theorem visitImportDecl_noDefault (st : LState) (d : ImportDecl)
    (h : d.specifiers.head?.bind asDefault = none) :
    visitImportDecl st d = st := by
  simp [visitImportDecl, h]

theorem visitImportDecl_default (st : LState) (loc : String)
    (rest : List ImportSpecifier) :
    visitImportDecl st ⟨"next/dynamic", .defaultSpec loc :: rest⟩ =
      { st with dynamicIdent := some loc } := by
  simp [visitImportDecl, asDefault]

theorem visitImportDecl_sources (st : LState) (d : ImportDecl) :
    (visitImportDecl st d).importSources = st.importSources := by
  unfold visitImportDecl
  split
  · cases d.specifiers.head?.bind asDefault <;> simp
  · rfl

/-! ### Helper lemmas: the wrapper matching step -/

theorem wrapperMatchStep_none (st : LState) (c : Callee) (args : ExprList)
    (h : st.dynamicIdent = none) : wrapperMatchStep st c args = st := by
  cases c with
  | superC => rfl
  | importC => rfl
  | exprC e => cases e <;> simp [wrapperMatchStep, h]

theorem wrapperMatchStep_ident (st : LState) (c : Callee) (args : ExprList) :
    (wrapperMatchStep st c args).dynamicIdent = st.dynamicIdent := by
  unfold wrapperMatchStep
  split
  · split
    · split <;> rfl
    · rfl
  · rfl

theorem wrapperMatchStep_sources (st : LState) (c : Callee) (args : ExprList) :
    ∃ o : Option String,
      (wrapperMatchStep st c args).importSources = st.importSources ++ o.toList := by
  unfold wrapperMatchStep
  split
  · split
    · split
      · next s _ => exact ⟨some s, by simp⟩
      · exact ⟨none, by simp⟩
    · exact ⟨none, by simp⟩
  · exact ⟨none, by simp⟩

/-! ### Helper lemmas: with no tracked binding, the tree walk is inert -/

mutual
theorem lodableExpr_none (st : LState) (h : st.dynamicIdent = none) :
    (e : Expr) → lodableExpr st e = st
  | .ident _ => by simp [lodableExpr]
  | .litE _ => by simp [lodableExpr]
  | .otherE => by simp [lodableExpr]
  | .arr elems => by
    have h1 := lodableList_none st h elems
    simp [lodableExpr, h1]
  | .call c args => by
    have h1 := wrapperMatchStep_none st c args h
    have h2 := lodableCallee_none st h c
    have h3 := lodableList_none st h args
    simp [lodableExpr, h1, h2, h3]

theorem lodableCallee_none (st : LState) (h : st.dynamicIdent = none) :
    (c : Callee) → lodableCallee st c = st
  | .superC => by simp [lodableCallee]
  | .importC => by simp [lodableCallee]
  | .exprC e => by
    have h1 := lodableExpr_none st h e
    simp [lodableCallee, h1]

theorem lodableList_none (st : LState) (h : st.dynamicIdent = none) :
    (l : ExprList) → lodableList st l = st
  | .nil => by simp [lodableList]
  | .cons e rest => by
    have h1 := lodableExpr_none st h e
    have h2 := lodableList_none st h rest
    simp [lodableList, h1, h2]
end

/-- A module whose items contain no import declaration from
"next/dynamic" leaves any binding-free visitor state untouched. -/
theorem lodableFold_no_dynamic :
    (items : List ModuleItem) → ∀ st : LState, st.dynamicIdent = none →
      (∀ d : ImportDecl, ModuleItem.importItem d ∈ items → d.src ≠ "next/dynamic") →
      items.foldl lodableModuleItem st = st
  | [], _, _, _ => rfl
  | item :: rest, st, h, hno => by
    have hstep : lodableModuleItem st item = st := by
      cases item with
      | importItem d =>
        exact visitImportDecl_ne st d (hno d (List.mem_cons_self _ _))
      | stmt e => exact lodableExpr_none st h e
    rw [List.foldl_cons, hstep]
    exact lodableFold_no_dynamic rest st h
      (fun d hd => hno d (List.mem_cons_of_mem _ hd))

/-! ### Helper lemmas: evaluation of the scenario programs -/

theorem aliasProg_state (x s : String) :
    lodableProgram (aliasProg x s) = ⟨some x, [s]⟩ := by
  simp [aliasProg, lodableProgram, lodableModuleItem, visitImportDecl, asDefault,
    lodableExpr, lodableCallee, lodableList, wrapperMatchStep, collectCallChildren,
    collectExpr, collectList, impCall]

theorem twoSiblingProg_state (x a b : String) :
    lodableProgram (twoSiblingProg x a b) = ⟨some x, [b]⟩ := by
  simp [twoSiblingProg, lodableProgram, lodableModuleItem, visitImportDecl, asDefault,
    lodableExpr, lodableCallee, lodableList, wrapperMatchStep, collectCallChildren,
    collectExpr, collectList, impCall]

theorem mixedProg_state (x g b : String) :
    lodableProgram (mixedProg x g b) = ⟨some x, [b]⟩ := by
  simp [mixedProg, lodableProgram, lodableModuleItem, visitImportDecl, asDefault,
    lodableExpr, lodableCallee, lodableList, wrapperMatchStep, collectCallChildren,
    collectExpr, collectList, impCall]

theorem appProg_state (x w c : String) :
    lodableProgram (appProg x w c) = ⟨some x, [w, c]⟩ := by
  simp [appProg, lodableProgram, lodableModuleItem, visitImportDecl, asDefault,
    lodableExpr, lodableCallee, lodableList, wrapperMatchStep, collectCallChildren,
    collectExpr, collectList, impCall]

/-! ### Helper lemmas: the resolution loop -/

theorem resolveAll_eq_filterMap (resolve : Nat → String → Option Nat) (m : Nat) :
    (srcs : List String) →
      resolveAll resolve m srcs =
        srcs.filterMap fun s => (resolve m s).map fun t => (s, t)
  | [] => by simp [resolveAll]
  | s :: rest => by
    have ih := resolveAll_eq_filterMap resolve m rest
    cases h : resolve m s <;> simp [resolveAll, h, ih]

theorem resolveAll_all_none (resolve : Nat → String → Option Nat) (m : Nat) :
    (srcs : List String) → (∀ s ∈ srcs, resolve m s = none) →
      resolveAll resolve m srcs = []
  | [], _ => rfl
  | s :: rest, h => by
    have hs : resolve m s = none := h s (List.mem_cons_self _ _)
    have ih := resolveAll_all_none resolve m rest
      (fun v hv => h v (List.mem_cons_of_mem _ hv))
    simp [resolveAll, hs, ih]

/-! ### Helper lemmas: traversal and aggregation -/

theorem visitStep_nodup (refs : Nat → List Nat) :
    ∀ (fuel : Nat) (queue visited : List Nat), visited.Nodup →
      (visitStep refs fuel queue visited).Nodup := by
  intro fuel
  induction fuel with
  | zero => intro queue visited h; simpa [visitStep] using h
  | succ n ih =>
    intro queue visited h
    cases queue with
    | nil => simpa [visitStep] using h
    | cons m rest =>
      by_cases hm : m ∈ visited
      · simpa [visitStep, hm] using ih rest visited h
      · have hv : (visited ++ [m]).Nodup := by
          rw [List.nodup_append]
          exact ⟨h, List.nodup_singleton m, by simpa [List.disjoint_singleton] using hm⟩
        simpa [visitStep, hm] using ih (rest ++ refs m) (visited ++ [m]) hv

theorem traverseModules_nodup (refs : Nat → List Nat) (fuel entry : Nat) :
    (traverseModules refs fuel entry).Nodup :=
  visitStep_nodup refs fuel [entry] [] List.nodup_nil

theorem insertAppend_keys (key : Nat) (vals : List (String × Nat)) :
    (acc : List (Nat × List (String × Nat))) →
      (insertAppend acc key vals).map Prod.fst =
        if key ∈ acc.map Prod.fst then acc.map Prod.fst
        else acc.map Prod.fst ++ [key]
  | [] => by simp [insertAppend]
  | (k, v) :: rest => by
    have ih := insertAppend_keys key vals rest
    by_cases hk : k = key
    · subst hk; simp [insertAppend]
    · have hne : ¬key = k := fun h => hk h.symm
      by_cases hmem : key ∈ rest.map Prod.fst
      · simp [insertAppend, hk, ih, hmem, hne]
      · simp [insertAppend, hk, ih, hmem, hne]

theorem insertAppend_keys_nodup (acc : List (Nat × List (String × Nat)))
    (key : Nat) (vals : List (String × Nat))
    (h : (acc.map Prod.fst).Nodup) :
    ((insertAppend acc key vals).map Prod.fst).Nodup := by
  rw [insertAppend_keys]
  split
  · exact h
  · next hmem =>
    rw [List.nodup_append]
    exact ⟨h, List.nodup_singleton key, by simpa [List.disjoint_singleton] using hmem⟩

theorem mappingStep_keys_nodup (acc : List (Nat × List (String × Nat)))
    (r : Option (Nat × List (String × Nat)) × List IssueRecord)
    (h : (acc.map Prod.fst).Nodup) :
    ((mappingStep acc r).map Prod.fst).Nodup := by
  unfold mappingStep
  split
  · exact insertAppend_keys_nodup _ _ _ h
  · exact h

theorem foldl_mappingStep_keys_nodup :
    (results : List (Option (Nat × List (String × Nat)) × List IssueRecord)) →
      ∀ acc, (acc.map Prod.fst).Nodup →
        ((results.foldl mappingStep acc).map Prod.fst).Nodup
  | [], _, h => h
  | r :: rest, acc, h => by
    rw [List.foldl_cons]
    exact foldl_mappingStep_keys_nodup rest (mappingStep acc r)
      (mappingStep_keys_nodup acc r h)

theorem lookup_insertAppend (k : Nat) (v w : List (String × Nat)) :
    (acc : List (Nat × List (String × Nat))) → acc.lookup k = some v →
      (insertAppend acc k w).lookup k = some (v ++ w)
  | [], h => by simp [List.lookup] at h
  | (a, b) :: rest, h => by
    by_cases ha : a = k
    · subst ha
      simp [List.lookup] at h
      subst h
      simp [insertAppend, List.lookup]
    · have hne : (k == a) = false := by simp [ha, Ne.symm]
      simp [List.lookup, hne] at h
      have ih := lookup_insertAppend k v w rest h
      simp [insertAppend, ha, List.lookup, hne, ih]

/-! ### Helper lemmas: every reported specifier comes from a string
literal in the tree -/

mutual
theorem collectExpr_sound (st : Option String) (s : String) :
    (e : Expr) → collectExpr st e = some s →
      st = some s ∨ hasImportLitE s e = true
  | .ident _, h => by simp [collectExpr] at h; exact .inl h
  | .litE _, h => by simp [collectExpr] at h; exact .inl h
  | .otherE, h => by simp [collectExpr] at h; exact .inl h
  | .arr elems, h => by
    simp only [collectExpr] at h
    rcases collectList_sound st s elems h with h1 | h1
    · exact .inl h1
    · exact .inr (by simp [hasImportLitE, h1])
  | .call c args, h => by
    cases c with
    | importC =>
      cases args with
      | nil => simp [collectExpr] at h; exact .inl h
      | cons hd tl =>
        cases hd with
        | litE l =>
          cases l with
          | str v =>
            simp [collectExpr] at h
            exact .inr (by simp [hasImportLitE, h])
          | otherLit => simp [collectExpr] at h; exact .inl h
        | ident _ => simp [collectExpr] at h; exact .inl h
        | call c2 a2 => simp [collectExpr] at h; exact .inl h
        | arr el => simp [collectExpr] at h; exact .inl h
        | otherE => simp [collectExpr] at h; exact .inl h
    | superC => simp [collectExpr] at h; exact .inl h
    | exprC e2 => simp [collectExpr] at h; exact .inl h

theorem collectList_sound (st : Option String) (s : String) :
    (l : ExprList) → collectList st l = some s →
      st = some s ∨ hasImportLitL s l = true
  | .nil, h => by simp [collectList] at h; exact .inl h
  | .cons e rest, h => by
    simp only [collectList] at h
    rcases collectList_sound (collectExpr st e) s rest h with h1 | h1
    · rcases collectExpr_sound st s e h1 with h2 | h2
      · exact .inl h2
      · exact .inr (by simp [hasImportLitL, h2])
    · exact .inr (by simp [hasImportLitL, h1])
end

theorem collectCallChildren_sound (c : Callee) (args : ExprList) (s : String)
    (h : collectCallChildren c args = some s) :
    hasImportLitC s c = true ∨ hasImportLitL s args = true := by
  unfold collectCallChildren at h
  rcases collectList_sound _ s args h with h1 | h1
  · cases c with
    | exprC e =>
      simp only at h1
      rcases collectExpr_sound none s e h1 with h2 | h2
      · exact absurd h2 (by simp)
      · exact .inl (by simp [hasImportLitC, h2])
    | superC => simp at h1
    | importC => simp at h1
  · exact .inr h1

theorem wrapperMatchStep_sound (st : LState) (c : Callee) (args : ExprList)
    (s : String) (h : s ∈ (wrapperMatchStep st c args).importSources) :
    s ∈ st.importSources ∨ hasImportLitC s c = true ∨
      hasImportLitL s args = true := by
  unfold wrapperMatchStep at h
  split at h
  · next sym d heq hdy =>
    split at h
    · split at h
      · next v hc =>
        simp at h
        rcases h with h | h
        · exact .inl h
        · subst h
          rcases collectCallChildren_sound _ args s hc with h2 | h2
          · exact absurd h2 (by simp [hasImportLitC, hasImportLitE])
          · exact .inr (.inr h2)
      · exact .inl h
    · exact .inl h
  · exact .inl h

mutual
theorem lodableExpr_sound (st : LState) (s : String) :
    (e : Expr) → s ∈ (lodableExpr st e).importSources →
      s ∈ st.importSources ∨ hasImportLitE s e = true
  | .ident _, h => by simp [lodableExpr] at h; exact .inl h
  | .litE _, h => by simp [lodableExpr] at h; exact .inl h
  | .otherE, h => by simp [lodableExpr] at h; exact .inl h
  | .arr elems, h => by
    simp only [lodableExpr] at h
    rcases lodableList_sound st s elems h with h1 | h1
    · exact .inl h1
    · exact .inr (by simp [hasImportLitE, h1])
  | .call c args, h => by
    simp only [lodableExpr] at h
    rcases lodableList_sound _ s args h with h1 | h1
    · rcases lodableCallee_sound _ s c h1 with h2 | h2
      · rcases wrapperMatchStep_sound st c args s h2 with h3 | h3 | h3
        · exact .inl h3
        · exact .inr (by simp [hasImportLitE, h3])
        · exact .inr (by simp [hasImportLitE, h3])
      · exact .inr (by simp [hasImportLitE, h2])
    · exact .inr (by simp [hasImportLitE, h1])

theorem lodableCallee_sound (st : LState) (s : String) :
    (c : Callee) → s ∈ (lodableCallee st c).importSources →
      s ∈ st.importSources ∨ hasImportLitC s c = true
  | .superC, h => by simp [lodableCallee] at h; exact .inl h
  | .importC, h => by simp [lodableCallee] at h; exact .inl h
  | .exprC e, h => by
    simp only [lodableCallee] at h
    rcases lodableExpr_sound st s e h with h1 | h1
    · exact .inl h1
    · exact .inr (by simp [hasImportLitC, h1])

theorem lodableList_sound (st : LState) (s : String) :
    (l : ExprList) → s ∈ (lodableList st l).importSources →
      s ∈ st.importSources ∨ hasImportLitL s l = true
  | .nil, h => by simp [lodableList] at h; exact .inl h
  | .cons e rest, h => by
    simp only [lodableList] at h
    rcases lodableList_sound (lodableExpr st e) s rest h with h1 | h1
    · rcases lodableExpr_sound st s e h1 with h2 | h2
      · exact .inl h2
      · exact .inr (by simp [hasImportLitL, h2])
    · exact .inr (by simp [hasImportLitL, h1])
end

theorem lodableModuleItem_sound (st : LState) (s : String) (item : ModuleItem)
    (h : s ∈ (lodableModuleItem st item).importSources) :
    s ∈ st.importSources ∨ hasImportLitItem s item = true := by
  cases item with
  | importItem d =>
    simp only [lodableModuleItem] at h
    rw [visitImportDecl_sources] at h
    exact .inl h
  | stmt e =>
    simp only [lodableModuleItem] at h
    rcases lodableExpr_sound st s e h with h1 | h1
    · exact .inl h1
    · exact .inr (by simp [hasImportLitItem, h1])

theorem lodableFold_sound (s : String) :
    (items : List ModuleItem) → ∀ st : LState,
      s ∈ (items.foldl lodableModuleItem st).importSources →
      s ∈ st.importSources ∨ hasImportLitProgram s items = true
  | [], st, h => by simp at h; exact .inl h
  | item :: rest, st, h => by
    rw [List.foldl_cons] at h
    rcases lodableFold_sound s rest (lodableModuleItem st item) h with h1 | h1
    · rcases lodableModuleItem_sound st s item h1 with h2 | h2
      · exact .inl h2
      · exact .inr (by simp [hasImportLitProgram, List.any_cons, h2])
    · refine .inr ?hx
      simp only [hasImportLitProgram] at h1 ⊢
      simp [List.any_cons, h1]

theorem lodableProgram_sound (s : String) (items : List ModuleItem)
    (h : s ∈ (lodableProgram items).importSources) :
    hasImportLitProgram s items = true := by
  rcases lodableFold_sound s items ⟨none, []⟩ h with h1 | h1
  · simp at h1
  · exact h1

/-! ### Claims -/

/-- C1 counterexample: module 0's matcher output is the non-empty
["./a"], "./a" fails to resolve, yet the extractor does not return "no
dynamic imports" (its result is `some`), and module 0 does appear as a
key of the final mapping. -/
theorem C1_counterexample :
    (lodableProgram (aliasProg "dynamic" "./a")).importSources = ["./a"] ∧
    resolveNone 0 "./a" = none ∧
    (build_dynamic_imports_map_for_module envUnresolved resolveNone 0).1 ≠ none ∧
    (collect_next_dynamic_imports envUnresolved refsEmpty resolveNone 2 0).1.map
      Prod.fst = [0] := by
  refine ⟨rfl, rfl, ?_, rfl⟩
  decide

/-- C1 (corrected): when the pattern matcher output of a module is
non-empty but every raw specifier fails to resolve, the extractor does
NOT return "no dynamic imports": the emptiness test runs before
resolution, so the module yields `some (module, [])` and appears as a
key of the final mapping with an empty list (concrete single-module
instance in the second conjunct). -/
theorem C1_empty_after_resolution (env : Nat → ModuleInfo)
    (resolve : Nat → String → Option Nat) (m : Nat) (p : String)
    (program : List ModuleItem)
    (henv : env m = ⟨p, true, .ok program⟩)
    (hne : (lodableProgram program).importSources ≠ [])
    (hfail : ∀ s ∈ (lodableProgram program).importSources, resolve m s = none) :
    build_dynamic_imports_map_for_module env resolve m = (some (m, []), []) ∧
    (collect_next_dynamic_imports envUnresolved refsEmpty resolveNone 2 0).1 =
      [(0, [])] := by
  refine ⟨?_, by decide⟩
  have hr := resolveAll_all_none resolve m _ hfail
  simp [build_dynamic_imports_map_for_module, henv, hne, hr]

/-- C1 witness: the amended theorem at the concrete all-unresolvable
environment. -/
theorem C1_witness :
    build_dynamic_imports_map_for_module envUnresolved resolveNone 0 =
      (some (0, []), []) :=
  (C1_empty_after_resolution envUnresolved resolveNone 0 "app.js"
    (aliasProg "dynamic" "./a") rfl (by decide) (by decide)).1

/-- C2 counterexample: for the wrapper call
`dynamic(import("./a"), import("./b"))` the recorded specifier is
"./b", not the first-in-source-order "./a" the claim requires. -/
theorem C2_counterexample :
    (lodableProgram (twoSiblingProg "dynamic" "./a" "./b")).importSources =
      ["./b"] ∧
    ¬ (lodableProgram (twoSiblingProg "dynamic" "./a" "./b")).importSources =
      ["./a"] := by
  decide

/-- C2 (corrected): the nested matcher's slot is overwritten by every
dynamic-load call whose first argument is a string literal
(independently of any previously found value), and sibling children of
the wrapper call keep being visited, so with two sibling dynamic-load
calls with literal arguments the LAST one in source order is recorded,
not the first. -/
theorem C2_last_sibling_wins :
    (∀ (st : Option String) (s : String) (rest : ExprList),
      collectExpr st (.call .importC (.cons (.litE (.str s)) rest)) = some s) ∧
    (∀ x a b : String,
      (lodableProgram (twoSiblingProg x a b)).importSources = [b]) := by
  constructor
  · intro st s rest; rfl
  · intro x a b; rw [twoSiblingProg_state]

/-- C3: the graph traversal visits every module at most once (so a
visited module is visited exactly once and the extractor is mapped
over a duplicate-free module list), the final mapping's keys are
duplicate-free, and merging appends to an existing key's list rather
than overwriting it. -/
theorem C3_exactly_once (refs : Nat → List Nat) (fuel entry X : Nat)
    (env : Nat → ModuleInfo) (resolve : Nat → String → Option Nat)
    (hX : X ∈ traverseModules refs fuel entry) :
    List.count X (traverseModules refs fuel entry) = 1 ∧
    ((collect_next_dynamic_imports env refs resolve fuel entry).1.map
      Prod.fst).Nodup ∧
    (∀ (acc : List (Nat × List (String × Nat))) (k : Nat)
        (v w : List (String × Nat)),
      acc.lookup k = some v → (insertAppend acc k w).lookup k = some (v ++ w)) := by
  refine ⟨List.count_eq_one_of_mem (traverseModules_nodup refs fuel entry) hX,
    ?_, fun acc k v w h => lookup_insertAppend k v w acc h⟩
  simp only [collect_next_dynamic_imports]
  exact foldl_mappingStep_keys_nodup _ [] (by simp)

/-- C3 witness: in the diamond graph 0 → 1, 0 → 2, 1 → 3, 2 → 3, the
shared module 3 is reached and counted exactly once. -/
theorem C3_witness :
    3 ∈ traverseModules refsDiamond 10 0 ∧
    List.count 3 (traverseModules refsDiamond 10 0) = 1 :=
  ⟨by decide, (C3_exactly_once refsDiamond 10 0 3 envUnresolved resolveNone
    (by decide)).1⟩

/-- C4: a module whose program contains no import declaration from
"next/dynamic" yields no raw specifiers and the extractor returns "no
dynamic imports", whatever call expressions the module contains. -/
theorem C4_no_wrapper_no_imports (env : Nat → ModuleInfo)
    (resolve : Nat → String → Option Nat) (m : Nat) (p : String)
    (program : List ModuleItem)
    (henv : env m = ⟨p, true, .ok program⟩)
    (hno : ∀ d : ImportDecl, ModuleItem.importItem d ∈ program →
      d.src ≠ "next/dynamic") :
    (lodableProgram program).importSources = [] ∧
    build_dynamic_imports_map_for_module env resolve m = (none, []) := by
  have hfold := lodableFold_no_dynamic program ⟨none, []⟩ rfl hno
  have hsrc : (lodableProgram program).importSources = [] := by
    rw [lodableProgram, hfold]
  exact ⟨hsrc, by simp [build_dynamic_imports_map_for_module, henv, hsrc]⟩

/-- C4 witness: a module that calls `dynamic(import("./a"))` but
never imports the wrapper contributes nothing. -/
theorem C4_witness :
    build_dynamic_imports_map_for_module envNoImport resolveNone 0 = (none, []) :=
  (C4_no_wrapper_no_imports envNoImport resolveNone 0 "plain.js" noImportProg rfl
    (fun d hd => by simp [noImportProg] at hd)).2

/-- C5: aliasing is honored — a module importing the wrapper under an
arbitrary local name `x` and calling `x(import(s))` with `s` resolving
to `t` yields exactly the pair `(s, t)`; matching uses the tracked
local binding name. -/
theorem C5_alias_honored (env : Nat → ModuleInfo)
    (resolve : Nat → String → Option Nat) (m : Nat) (p x s : String) (t : Nat)
    (henv : env m = ⟨p, true, .ok (aliasProg x s)⟩)
    (hres : resolve m s = some t) :
    build_dynamic_imports_map_for_module env resolve m =
      (some (m, [(s, t)]), []) := by
  have hsrc : (lodableProgram (aliasProg x s)).importSources = [s] := by
    rw [aliasProg_state]
  simp [build_dynamic_imports_map_for_module, henv, hsrc, resolveAll, hres]

/-- C5 witness: the wrapper imported as `lazy` with `./b` resolving to
module 3. -/
theorem C5_witness :
    build_dynamic_imports_map_for_module envAlias resolveAlias 0 =
      (some (0, [("./b", 3)]), []) :=
  C5_alias_honored envAlias resolveAlias 0 "a.js" "lazy" "./b" 3 rfl rfl

/-- C6: a wrapper call whose dynamic-load argument is a non-literal
expression produces no entry while a sibling wrapper call with a
string-literal argument is still captured, and every specifier the
pattern matcher reports occurs in the tree as the string-literal first
argument of a dynamic-load call (never from a non-literal
expression). -/
theorem C6_literal_only :
    (∀ x g b : String, (lodableProgram (mixedProg x g b)).importSources = [b]) ∧
    (∀ (s : String) (items : List ModuleItem),
      s ∈ (lodableProgram items).importSources →
      hasImportLitProgram s items = true) := by
  exact ⟨fun x g b => by rw [mixedProg_state],
    fun s items h => lodableProgram_sound s items h⟩

/-- C6 witness: the captured sibling "./b" indeed occurs as a
dynamic-load string literal in the mixed module. -/
theorem C6_witness :
    "./b" ∈ (lodableProgram (mixedProg "dynamic" "getPath" "./b")).importSources ∧
    hasImportLitProgram "./b" (mixedProg "dynamic" "getPath" "./b") = true :=
  ⟨by decide, C6_literal_only.2 "./b" (mixedProg "dynamic" "getPath" "./b")
    (by decide)⟩

/-- C7: an unresolvable specifier is dropped silently — no diagnostic
is emitted — while resolved specifiers are kept as (specifier, module)
pairs in discovery order (the resolution loop is exactly an ordered
filterMap); in the app.js scenario only the widget pair remains. -/
theorem C7_silent_drop (env : Nat → ModuleInfo)
    (resolve : Nat → String → Option Nat) (m : Nat) (p x w c : String) (W : Nat)
    (henv : env m = ⟨p, true, .ok (appProg x w c)⟩)
    (hw : resolve m w = some W) (hc : resolve m c = none) :
    build_dynamic_imports_map_for_module env resolve m =
      (some (m, [(w, W)]), []) ∧
    (∀ (r : Nat → String → Option Nat) (n : Nat) (srcs : List String),
      resolveAll r n srcs =
        srcs.filterMap fun s => (r n s).map fun t => (s, t)) := by
  constructor
  · have hsrc : (lodableProgram (appProg x w c)).importSources = [w, c] := by
      rw [appProg_state]
    simp [build_dynamic_imports_map_for_module, henv, hsrc, resolveAll, hw, hc]
  · exact fun r n srcs => resolveAll_eq_filterMap r n srcs

/-- C7 witness: the app.js scenario with "./widget" resolving to
module 5 and "./chart" unresolvable. -/
theorem C7_witness :
    build_dynamic_imports_map_for_module envApp resolveApp 0 =
      (some (0, [("./widget", 5)]), []) :=
  (C7_silent_drop envApp resolveApp 0 "app.js" "dynamic" "./widget" "./chart" 5
    rfl rfl rfl).1

/-- C8: a module whose parse result is a failure yields no dynamic
entries, together with exactly one diagnostic of warning severity,
category "parsing", the module's path, and the fixed title and
description; and (concrete two-module graph) the failure does not
abort the traversal: the referenced module is still extracted. -/
theorem C8_parse_failure (env : Nat → ModuleInfo)
    (resolve : Nat → String → Option Nat) (m : Nat) (p : String)
    (henv : env m = ⟨p, true, .failed⟩) :
    build_dynamic_imports_map_for_module env resolve m =
      (none,
        [{ severity := .warning
           category := "parsing"
           filePath := p
           title := "Unable to parse source file"
           description := "Failed to parse source file. This is likely due to a syntax error in the source file."
           detail := "Failed to parse source file. This is likely due to a syntax error in the source file." }]) ∧
    collect_next_dynamic_imports envParseFail refsParseFail resolveParseFail 3 0 =
      ([(1, [("./w", 7)])], [nextDynamicParsingIssue "app.js"]) := by
  constructor
  · simp [build_dynamic_imports_map_for_module, henv, nextDynamicParsingIssue]
  · decide

/-- C8 witness: the parse-failure environment at module 0. -/
theorem C8_witness :
    build_dynamic_imports_map_for_module envParseFail resolveParseFail 0 =
      (none, [nextDynamicParsingIssue "app.js"]) := by
  have h := (C8_parse_failure envParseFail resolveParseFail 0 "app.js" rfl).1
  simpa [nextDynamicParsingIssue] using h

/-- C9: the wrapper binding is tracked only from an import declaration
from "next/dynamic" whose FIRST specifier is a default specifier; a
declaration from another source, one whose first specifier is not a
default specifier (including a named `default as d`), never binds; a
later qualifying declaration overwrites the earlier binding. -/
theorem C9_first_default_specifier :
    (∀ (st : LState) (d : ImportDecl), d.src ≠ "next/dynamic" →
      visitImportDecl st d = st) ∧
    (∀ (st : LState) (d : ImportDecl),
      d.specifiers.head?.bind asDefault = none → visitImportDecl st d = st) ∧
    (∀ (st : LState) (loc imported : String) (rest : List ImportSpecifier),
      visitImportDecl st ⟨"next/dynamic", .named loc (some imported) :: rest⟩ =
        st) ∧
    (∀ (st : LState) (loc : String) (rest : List ImportSpecifier),
      visitImportDecl st ⟨"next/dynamic", .defaultSpec loc :: rest⟩ =
        { st with dynamicIdent := some loc }) ∧
    (∀ x y : String, (lodableProgram (twoDeclProg x y)).dynamicIdent = some y) := by
  refine ⟨visitImportDecl_ne, visitImportDecl_noDefault, ?_, visitImportDecl_default, ?_⟩
  · intro st loc imported rest
    exact visitImportDecl_noDefault st _ (by simp [asDefault])
  · intro x y
    simp [twoDeclProg, lodableProgram, lodableModuleItem, visitImportDecl, asDefault]

/-- C9 witness: a declaration from another source and a named
`default as d` declaration from "next/dynamic", neither of which
binds. -/
theorem C9_witness :
    visitImportDecl ⟨none, []⟩ ⟨"other", [.defaultSpec "d"]⟩ = ⟨none, []⟩ ∧
    visitImportDecl ⟨none, []⟩ ⟨"next/dynamic", [.named "d" (some "default")]⟩ =
      ⟨none, []⟩ :=
  ⟨C9_first_default_specifier.1 ⟨none, []⟩ ⟨"other", [.defaultSpec "d"]⟩
      (by decide),
    C9_first_default_specifier.2.1 ⟨none, []⟩
      ⟨"next/dynamic", [.named "d" (some "default")]⟩ (by decide)⟩

/-- C10: each wrapper call contributes at most one raw specifier (the
match step appends the contents of a single optional slot), and only
the FIRST argument of a dynamic-load call is examined — a dynamic-load
call whose first argument is not a string literal records nothing even
when a later argument is one. -/
theorem C10_single_slot_first_arg :
    (∀ (st : LState) (c : Callee) (args : ExprList),
      ∃ o : Option String,
        (wrapperMatchStep st c args).importSources =
          st.importSources ++ o.toList) ∧
    (∀ (st : Option String) (e : Expr) (rest : ExprList),
      (∀ v : String, e ≠ .litE (.str v)) →
      collectExpr st (.call .importC (.cons e rest)) = st) ∧
    (∀ (st : Option String) (n s : String) (rest : ExprList),
      collectExpr st (.call .importC
        (.cons (.ident n) (.cons (.litE (.str s)) rest))) = st) := by
  refine ⟨wrapperMatchStep_sources, ?_, fun st n s rest => rfl⟩
  intro st e rest h
  cases e with
  | litE l =>
    cases l with
    | str v => exact absurd rfl (h v)
    | otherLit => rfl
  | ident _ => rfl
  | call c2 a2 => rfl
  | arr el => rfl
  | otherE => rfl

/-- C10 witness: a dynamic-load call whose first argument is an
identifier records nothing although its second argument is a string
literal. -/
theorem C10_witness :
    collectExpr none (.call .importC
      (.cons (.ident "getPath") (.cons (.litE (.str "./late")) .nil))) = none :=
  C10_single_slot_first_arg.2.1 none (.ident "getPath")
    (.cons (.litE (.str "./late")) .nil) (fun v h => by cases h)

end NextDynamic
